import Mathlib

/-!
Verification development for the HLTV scrape-parse-cache backend
(`backend.py`).  The Python source is shallowly embedded: pure parsing
functions become Lean functions over an abstract document model, the
process-wide TTL cache becomes explicit state passing over an association
list, HTTP fetches become oracles `String → Except Unit Resp` (where
`Except.error` models a raised `requests` exception, i.e. timeout or
network failure), and Python floats are modelled as exact rationals with
Python's `round` (half-to-even) made explicit.
-/

attribute [local semireducible] Rat.mul Rat.inv Rat.add Rat.sub Rat.ofScientific

/-- Python whitespace characters recognised by `str.strip` / regex `\s`
(ASCII subset, which is all the data model exercises). -/
def isSpacePy (c : Char) : Bool :=
  c = ' ' || c = '\t' || c = '\n' || c = '\r' || c = '\x0b' || c = '\x0c'

/-- ASCII digit test, regex class `[0-9]`. -/
def isDigitC (c : Char) : Bool :=
  '0' ≤ c && c ≤ '9'

/-- Strip leading and trailing whitespace, Python `str.strip()`. -/
def pyTrim (l : List Char) : List Char :=
  ((l.dropWhile isSpacePy).reverse.dropWhile isSpacePy).reverse

/-- Numeric value of a digit string (Python `int` on a `[0-9]+` token). -/
def digitsToNat (ds : List Char) : Nat :=
  ds.foldl (fun n c => 10 * n + (c.toNat - 48)) 0

/-- Core of Python `float(...)` on an already-stripped character list:
optional sign, then `digits [. digits]` or `. digits`, then an optional
exponent.  Exotic spellings (`inf`, `nan`, underscores) are outside the
data the program meets and are not modelled. -/
def pyFloatCore (l0 : List Char) : Option Rat :=
  let sgn : Int := match l0 with
    | '-' :: _ => -1
    | _ => 1
  let l : List Char := match l0 with
    | '+' :: r => r
    | '-' :: r => r
    | r => r
  let ip := l.takeWhile isDigitC
  let l1 := l.dropWhile isDigitC
  let fp : List Char := match l1 with
    | '.' :: r => r.takeWhile isDigitC
    | _ => []
  let l2 : List Char := match l1 with
    | '.' :: r => r.dropWhile isDigitC
    | r => r
  if ip = [] ∧ fp = [] then none
  else
    let mant : Rat := (digitsToNat ip : Rat) + (digitsToNat fp : Rat) / ((10 : Rat) ^ fp.length)
    match l2 with
    | [] => some ((sgn : Rat) * mant)
    | 'e' :: r => pyFloatExp sgn mant r
    | 'E' :: r => pyFloatExp sgn mant r
    | _ => none
where
  /-- Exponent part `[+-]?digits` of a Python float literal. -/
  pyFloatExp (sgn : Int) (mant : Rat) (r0 : List Char) : Option Rat :=
    let esgn : Int := match r0 with
      | '-' :: _ => -1
      | _ => 1
    let r : List Char := match r0 with
      | '+' :: t => t
      | '-' :: t => t
      | t => t
    let ed := r.takeWhile isDigitC
    if ed = [] ∨ r.dropWhile isDigitC ≠ [] then none
    else some ((sgn : Rat) * mant * (10 : Rat) ^ (esgn * (digitsToNat ed : Int)))

/-- Model of `safe_float` from the source: `float(x)` returning `None`
instead of raising on malformed input. -/
def safe_float (s : String) : Option Rat :=
  pyFloatCore (pyTrim s.toList)

/-- Python `round` to the nearest integer with ties to even, applied to an
exact rational (the source's floats are modelled as exact rationals). -/
def pyRoundHalfEven (q : Rat) : Int :=
  let f := q.floor
  let r := q - (f : Rat)
  if r < 1/2 then f
  else if 1/2 < r then f + 1
  else if f % 2 = 0 then f else f + 1

/-- Python `round(x, 2)`. -/
def pyRound2 (x : Rat) : Rat :=
  ((pyRoundHalfEven (x * 100) : Int) : Rat) / 100

/-- Model of `sibling.get_text(strip=True).replace('%','').strip()`:
remove every percent sign, then strip whitespace. -/
def stripPct (s : String) : String :=
  String.mk (pyTrim (s.toList.filter (fun c => c ≠ '%')))

/-!
## Document model

`BeautifulSoup` parsing of semi-structured HTML is abstracted per the
spec's document capability set: a document carries its raw text (what the
regex fallbacks and heuristics scan), its elements in document order
(tag name, stripped text, stripped text of the immediately following
sibling, if any — what `find_all` + `find_next_sibling` consume), and its
hyperlinks in document order (href and stripped visible text — what
`soup.select('a')` consumes).
-/

/-- An element as consumed by the structured stat lookup. -/
structure Element where
  tag : String
  text : String
  sibText : Option String
deriving DecidableEq

/-- A hyperlink as consumed by the participant scan: `a.get('href','')`
and `a.get_text(strip=True)`. -/
structure Anchor where
  href : String
  text : String
deriving DecidableEq

/-- A document: raw text plus its parsed views. -/
structure Doc where
  raw : List Char
  elements : List Element
  anchors : List Anchor
deriving DecidableEq

/-!
## Regex engines

Faithful executable models of the three regular expressions the source
uses, with Python's leftmost-match, greedy-with-backtracking semantics
worked out for each concrete pattern.
-/

/-- Match a literal pattern case-insensitively (re.IGNORECASE), returning
the rest of the input on success. -/
def matchCI : List Char → List Char → Option (List Char)
  | [], s => some s
  | _ :: _, [] => none
  | p :: ps, c :: cs => if p.toLower = c.toLower then matchCI ps cs else none

/-- Greedy capture of `[0-9]+\.?[0-9]*` at the start of the input:
a digit run, optionally followed by a dot and another digit run.
Returns the captured characters. -/
def takeDecimal (s : List Char) : Option (List Char) :=
  let d1 := s.takeWhile isDigitC
  if d1 = [] then none
  else
    match s.dropWhile isDigitC with
    | '.' :: r2 => some (d1 ++ '.' :: r2.takeWhile isDigitC)
    | _ => some d1

/-- Attempt `Kills\s*/\s*round[^0-9]*([0-9]+\.?[0-9]*)` (IGNORECASE) at
the start of the input; returns the captured group.  `\s*` then `/` is a
maximal whitespace run that must end at a slash, and `[^0-9]*` then
`[0-9]+` forces the capture to start at the first digit after `round`. -/
def kprPatAt (s : List Char) : Option (List Char) := do
  let s1 ← matchCI "Kills".toList s
  let s2 := s1.dropWhile isSpacePy
  let s3 ← match s2 with
    | '/' :: r => some r
    | _ => none
  let s4 := s3.dropWhile isSpacePy
  let s5 ← matchCI "round".toList s4
  takeDecimal (s5.dropWhile (fun c => !isDigitC c))

/-- `re.search` for the kills-per-round pattern: first start position
at which the pattern matches. -/
def reSearchKpr : List Char → Option (List Char)
  | [] => none
  | c :: cs =>
    match kprPatAt (c :: cs) with
    | some cap => some cap
    | none => reSearchKpr cs

/-- Attempt `Headshots[^0-9%]*([0-9]+\.?[0-9]*)%?` (IGNORECASE) at the
start of the input; returns the captured group.  `[^0-9%]*` then
`[0-9]+` forces the capture to start at the first digit-or-percent
character after `Headshots`, which must be a digit. -/
def hsPatAt (s : List Char) : Option (List Char) := do
  let s1 ← matchCI "Headshots".toList s
  takeDecimal (s1.dropWhile (fun c => !isDigitC c && c ≠ '%'))

/-- `re.search` for the headshots pattern. -/
def reSearchHs : List Char → Option (List Char)
  | [] => none
  | c :: cs =>
    match hsPatAt (c :: cs) with
    | some cap => some cap
    | none => reSearchHs cs

/-- Attempt to match exactly `k` digits followed by a percent sign at the
start of the input; returns the digits and the rest after the sign. -/
def pctTryK (s : List Char) (k : Nat) : Option (List Char × List Char) :=
  let ds := s.take k
  if ds.length = k ∧ ds.all isDigitC then
    match s.drop k with
    | '%' :: r => some (ds, r)
    | _ => none
  else none

/-- Attempt `([0-9]{1,3})\%` at the start of the input, greedily trying
three digits, then two, then one (regex backtracking order). -/
def pctAt (s : List Char) : Option (List Char × List Char) :=
  match pctTryK s 3 with
  | some x => some x
  | none =>
    match pctTryK s 2 with
    | some x => some x
    | none => pctTryK s 1

theorem pctTryK_length {s : List Char} {k : Nat} {x : List Char × List Char}
    (h : pctTryK s k = some x) : s.length = k + 1 + x.2.length := by
  unfold pctTryK at h
  by_cases hc : (s.take k).length = k ∧ (s.take k).all isDigitC = true
  · rw [if_pos hc] at h
    split at h
    · rename_i r hdrop
      cases h
      have hlen : (s.drop k).length = s.length - k := List.length_drop k s
      rw [hdrop] at hlen
      simp at hlen
      have hk : k ≤ s.length := by
        have h2 := hc.1
        have h3 : (s.take k).length = min k s.length := List.length_take k s
        omega
      show s.length = k + 1 + r.length
      omega
    · exact absurd h (by simp)
  · rw [if_neg hc] at h
    exact absurd h (by simp)

theorem pctAt_length {s : List Char} {x : List Char × List Char}
    (h : pctAt s = some x) : x.2.length + 2 ≤ s.length := by
  unfold pctAt at h
  split at h
  · rename_i h3
    cases h
    have := pctTryK_length h3
    omega
  · split at h
    · rename_i h2
      cases h
      have := pctTryK_length h2
      omega
    · have := pctTryK_length h
      omega

/-- Fuel-indexed scan for `re.findall(r'([0-9]{1,3})\%', s)`: at each
position either consume a match and continue after it, or advance one
character.  Each step strictly shrinks the input (`pctAt_length`), so
fuel equal to the input length is enough and the fuel never runs out. -/
def findPctsAux : Nat → List Char → List Nat
  | 0, _ => []
  | fuel + 1, s =>
    match pctAt s with
    | some x => digitsToNat x.1 :: findPctsAux fuel x.2
    | none =>
      match s with
      | [] => []
      | _ :: cs => findPctsAux fuel cs

/-- `re.findall(r'([0-9]{1,3})\%', s)` with the captures converted by
`int`. -/
def findPcts (s : List Char) : List Nat :=
  findPctsAux s.length s

/-!
## Stat Extractor (`parse_player_stats_from_player_page`)
-/

/-- The headshot normalization applied at both extraction sites: a raw
value above 1 is read as a whole percentage and divided by 100, a value
at most 1 is kept as-is. -/
def normHs (v : Rat) : Rat :=
  if 1 < v then v / 100 else v

/-- Is this element one of the label elements the structured lookup scans
for: a `span` or `div` whose stripped text is exactly one of the two
label strings? -/
def isStatLabel (e : Element) : Bool :=
  (e.tag = "span" || e.tag = "div") && (e.text = "Kills / round" || e.text = "Headshots")

/-- One iteration of the structured-lookup loop `for lab in labels`.
Each label with a following sibling assigns its field — later labels
overwrite earlier ones, and an unparsable sibling assigns `none`. -/
def structStep (st : Option Rat × Option Rat) (e : Element) : Option Rat × Option Rat :=
  if isStatLabel e then
    match e.sibText with
    | none => st
    | some sib =>
      let val := stripPct sib
      if e.text = "Kills / round" then (safe_float val, st.2)
      else (st.1, (safe_float val).map normHs)
  else st

/-- Result of the structured lookup for the kills-per-round field. -/
def structKpr (d : Doc) : Option Rat :=
  (d.elements.foldl structStep (none, none)).1

/-- Result of the structured lookup for the headshot field. -/
def structHs (d : Doc) : Option Rat :=
  (d.elements.foldl structStep (none, none)).2

/-- The kills-per-round regex fallback: capture then `safe_float`. -/
def regexKprVal (raw : List Char) : Option Rat :=
  match reSearchKpr raw with
  | none => none
  | some cap => safe_float (String.mk cap)

/-- The headshot regex fallback: capture, `safe_float`, then the
percentage normalization. -/
def regexHsVal (raw : List Char) : Option Rat :=
  match reSearchHs raw with
  | none => none
  | some cap => (safe_float (String.mk cap)).map normHs

/-- `parse_player_stats_from_player_page`: the structured label-sibling
loop over all label elements, then, independently per field, the regex
fallback when the structured phase left the field unset.  (The source's
trailing `float(...)` re-casts are identities and cannot raise.) -/
def parse_player_stats_from_player_page (d : Doc) : Option Rat × Option Rat :=
  let st := d.elements.foldl structStep (none, none)
  let kpr := match st.1 with
    | some k => some k
    | none => regexKprVal d.raw
  let hs := match st.2 with
    | some h => some h
    | none => regexHsVal d.raw
  (kpr, hs)

/-- The kills-per-round-relevant view of an element list: the sibling
texts of the kills-per-round labels, in order. -/
def kprView (l : List Element) : List (Option String) :=
  l.filterMap (fun e => if isStatLabel e ∧ e.text = "Kills / round" then some e.sibText else none)

/-- The headshot-relevant view of an element list. -/
def hsView (l : List Element) : List (Option String) :=
  l.filterMap (fun e => if isStatLabel e ∧ e.text ≠ "Kills / round" then some e.sibText else none)

/-!
## Match Extractor
-/

/-- Does the second list start with the first? -/
def listStarts : List Char → List Char → Bool
  | [], _ => true
  | _ :: _, [] => false
  | p :: ps, c :: cs => p = c && listStarts ps cs

/-- Python `needle in hay` for strings (nonempty needles). -/
def strContains (hay needle : List Char) : Bool :=
  match hay with
  | [] => needle.isEmpty
  | _ :: t => listStarts needle hay || strContains t needle

/-- `estimate_rounds_by_odds`: default 23.5; drop to 22.0 on a
favorite/favored keyword in the lowercased text; then, if the percent
token scan finds at least two tokens, the absolute difference of the
first two overrides the value (≥ 15 → 22.0, ≤ 8 → 26.0).  The source
takes the first four tokens but only indexes the first two, so the match
on the first two is equivalent. -/
def estimate_rounds_by_odds (match_raw : List Char) : Rat :=
  let lower := match_raw.map Char.toLower
  let rounds : Rat :=
    if strContains lower "favorite".toList || strContains lower "favored".toList
    then 22 else 23.5
  match findPcts match_raw with
  | p0 :: p1 :: _ =>
    let diff := ((p0 : Int) - (p1 : Int)).natAbs
    if 15 ≤ diff then 22
    else if diff ≤ 8 then 26
    else rounds
  | _ => rounds

/-- A participant: name and profile link. -/
structure PlayerRef where
  name : String
  href : String
deriving DecidableEq

/-- The deduplication loop of `find_players_from_match_page`: keep a
player when the name has not been seen, first occurrence wins, order
preserved. -/
def dedupLoop : List String → List PlayerRef → List PlayerRef
  | _, [] => []
  | seen, p :: rest =>
    if p.name ∈ seen then dedupLoop seen rest
    else p :: dedupLoop (p.name :: seen) rest

/-- The participant filter: anchors whose href starts with `/player/`
and whose stripped text is non-empty. -/
def playerAnchor (a : Anchor) : Option PlayerRef :=
  if listStarts "/player/".toList a.href.toList ∧ a.text ≠ "" then some ⟨a.text, a.href⟩
  else none

/-- `find_players_from_match_page`: collect qualifying player links in
document order, then deduplicate by name. -/
def find_players_from_match_page (anchors : List Anchor) : List PlayerRef :=
  dedupLoop [] (anchors.filterMap playerAnchor)

/-!
## Cache

The process-wide dict becomes an association list threaded explicitly;
`time.time()` becomes an explicit integer instant.
-/

/-- 30 minutes, in seconds. -/
def CACHE_TTL : Int := 30 * 60

/-- A stored cache record: timestamp and value. -/
structure CacheEntry (V : Type) where
  ts : Int
  value : V
deriving DecidableEq

/-- The cache: one entry per key. -/
abbrev Cache (V : Type) : Type := List (String × CacheEntry V)

/-- Dict lookup. -/
def cacheLookup (c : Cache V) (key : String) : Option (CacheEntry V) :=
  (c.find? (fun p => p.1 = key)).map Prod.snd

/-- Dict `del` (a no-op when the key is absent, as the source swallows
`KeyError`). -/
def cacheErase (c : Cache V) (key : String) : Cache V :=
  c.filter (fun p => p.1 ≠ key)

/-- `cache_set`: store the value under the key with the current time,
replacing any previous entry. -/
def cache_set (now : Int) (c : Cache V) (key : String) (value : V) : Cache V :=
  (key, ⟨now, value⟩) :: cacheErase c key

/-- `cache_get`: miss on an absent key; on a present entry older than the
TTL (strictly), delete it and miss; otherwise return the stored value
unchanged.  Returns the possibly-updated cache alongside the result. -/
def cache_get (now : Int) (c : Cache V) (key : String) : Option V × Cache V :=
  match cacheLookup c key with
  | none => (none, c)
  | some e =>
    if CACHE_TTL < now - e.ts then (none, cacheErase c key)
    else (some e.value, c)

/-!
## Fetcher

`requests.get` is an oracle `String → Except Unit Resp`: `Except.error`
models a raised timeout/network exception, `Except.ok` a response with a
status code and a body (the body carries its parsed views).  The
fetchers translate line for line: a non-200 status yields `none`, a 200
yields the body, and a raised exception is not caught, so it propagates
as `Except.error`.
-/

deriving instance DecidableEq for Except

/-- An HTTP response. -/
structure Resp where
  status : Nat
  body : Doc
deriving DecidableEq

/-- URL resolution for a player link: a relative `/player/` path is
resolved against the site origin, anything else is used verbatim. -/
def playerUrl (player_href : String) : String :=
  if listStarts "/player/".toList player_href.toList then "https://www.hltv.org" ++ player_href
  else player_href

/-- `fetch_hltv_player_page`. -/
def fetch_hltv_player_page (net : String → Except Unit Resp) (player_href : String) :
    Except Unit (Option Doc) :=
  match net (playerUrl player_href) with
  | .error e => .error e
  | .ok r => if r.status ≠ 200 then .ok none else .ok (some r.body)

/-- The URL of a match page. -/
def matchUrl (match_id : String) : String :=
  "https://www.hltv.org/matches/" ++ match_id ++ "/"

/-- `fetch_match_page`. -/
def fetch_match_page (net : String → Except Unit Resp) (match_id : String) :
    Except Unit (Option Doc) :=
  match net (matchUrl match_id) with
  | .error e => .error e
  | .ok r => if r.status ≠ 200 then .ok none else .ok (some r.body)

/-!
## Props Builder
-/

/-- One emitted prop entry.  All numeric fields are structurally present;
the zero-fallbacks of the source are explicit in `process_player`. -/
structure PropEntry where
  player : String
  player_href : String
  kpr : Rat
  hs_percent : Rat
  expected_kills_per_map : Rat
  kill_line : Rat
  hs_line : Rat
deriving DecidableEq

/-- The body of the per-participant loop of `build_props_for_match`:
fetch the profile page (a raised exception is caught by the loop's
`try`/`except` and skips the participant), skip on a missing or falsy
page, parse the stats, and assemble the entry with zero-fallbacks.
`hs_line` follows the source's conditional exactly: nonzero only when
the headshot stat is known and the expected-kills value is truthy. -/
def process_player (playerNet : String → Except Unit Resp) (rounds_per_map : Rat)
    (p : PlayerRef) : Option PropEntry :=
  match fetch_hltv_player_page playerNet p.href with
  | .error _ => none
  | .ok none => none
  | .ok (some doc) =>
    if doc.raw.isEmpty then none
    else some (mkEntry p (parse_player_stats_from_player_page doc) rounds_per_map)
where
  /-- The entry dict built at the end of the loop body, for parsed stats
  `st = (kpr, hs)`. -/
  mkEntry (p : PlayerRef) (st : Option Rat × Option Rat) (rounds_per_map : Rat) : PropEntry :=
    let expected : Option Rat := match st.1 with
      | some k => some (pyRound2 (k * rounds_per_map))
      | none => none
    { player := p.name
      player_href := p.href
      kpr := st.1.getD 0
      hs_percent := st.2.getD 0
      expected_kills_per_map := expected.getD 0
      kill_line := expected.getD 0
      hs_line := match st.2, expected with
        | some h, some e => if e ≠ 0 then pyRound2 (h * e) else 0
        | _, _ => 0 }

/-- The cache key of a match's props. -/
def matchPropsKey (match_id : String) : String :=
  "match_props_" ++ match_id

/-- The cache-miss path of `build_props_for_match`: fetch the match page
(an exception from this fetch is NOT caught and propagates), return `[]`
on a missing or falsy page (without caching), otherwise derive the
rounds estimate and participants, process the first 20 participants, and
cache and return the result. -/
def build_props_uncached (now : Int) (matchNet playerNet : String → Except Unit Resp)
    (match_id : String) (c : Cache (List PropEntry)) :
    Except Unit (List PropEntry × Cache (List PropEntry)) :=
  match fetch_match_page matchNet match_id with
  | .error e => .error e
  | .ok none => .ok ([], c)
  | .ok (some doc) =>
    if doc.raw.isEmpty then .ok ([], c)
    else
      let rounds_per_map := estimate_rounds_by_odds doc.raw
      let players := find_players_from_match_page doc.anchors
      let out := (players.take 20).filterMap (process_player playerNet rounds_per_map)
      .ok (out, cache_set now c (matchPropsKey match_id) out)

/-- `build_props_for_match`: consult the cache first.  The source's
`if cached:` is a Python truthiness test, so a cached empty list falls
through to recomputation exactly like a miss. -/
def build_props_for_match (now : Int) (matchNet playerNet : String → Except Unit Resp)
    (match_id : String) (c : Cache (List PropEntry)) :
    Except Unit (List PropEntry × Cache (List PropEntry)) :=
  let looked := cache_get now c (matchPropsKey match_id)
  match looked.1 with
  | some v =>
    if v.isEmpty then build_props_uncached now matchNet playerNet match_id looked.2
    else .ok (v, looked.2)
  | none => build_props_uncached now matchNet playerNet match_id looked.2

/-!
## Helper lemmas
-/

theorem dedupLoop_not_seen : ∀ (seen : List String) (l : List PlayerRef) (e : PlayerRef),
    e ∈ dedupLoop seen l → e.name ∉ seen := by
  intro seen l
  induction l generalizing seen with
  | nil => intro e h; simp [dedupLoop] at h
  | cons p rest ih =>
    intro e h
    by_cases hp : p.name ∈ seen
    · rw [show dedupLoop seen (p :: rest) = dedupLoop seen rest by simp [dedupLoop, hp]] at h
      exact ih seen e h
    · rw [show dedupLoop seen (p :: rest) = p :: dedupLoop (p.name :: seen) rest by
        simp [dedupLoop, hp]] at h
      rcases List.mem_cons.mp h with rfl | h2
      · exact hp
      · have h3 := ih (p.name :: seen) e h2
        intro hc
        exact h3 (List.mem_cons_of_mem _ hc)

theorem dedupLoop_names_nodup : ∀ (seen : List String) (l : List PlayerRef),
    ((dedupLoop seen l).map PlayerRef.name).Nodup := by
  intro seen l
  induction l generalizing seen with
  | nil => simp [dedupLoop]
  | cons p rest ih =>
    by_cases hp : p.name ∈ seen
    · simpa [dedupLoop, hp] using ih seen
    · rw [show dedupLoop seen (p :: rest) = p :: dedupLoop (p.name :: seen) rest by
        simp [dedupLoop, hp]]
      rw [List.map_cons, List.nodup_cons]
      refine ⟨?_, ih (p.name :: seen)⟩
      intro hmem
      rcases List.mem_map.mp hmem with ⟨e, he, hname⟩
      exact dedupLoop_not_seen (p.name :: seen) rest e he (hname ▸ List.mem_cons_self _ _)

theorem dedupLoop_sublist : ∀ (seen : List String) (l : List PlayerRef),
    (dedupLoop seen l).Sublist l := by
  intro seen l
  induction l generalizing seen with
  | nil => simp [dedupLoop]
  | cons p rest ih =>
    by_cases hp : p.name ∈ seen
    · rw [show dedupLoop seen (p :: rest) = dedupLoop seen rest by simp [dedupLoop, hp]]
      exact (ih seen).cons p
    · rw [show dedupLoop seen (p :: rest) = p :: dedupLoop (p.name :: seen) rest by
        simp [dedupLoop, hp]]
      exact (ih (p.name :: seen)).cons₂ p

theorem dedupLoop_complete : ∀ (seen : List String) (l : List PlayerRef) (q : PlayerRef),
    q ∈ l → q.name ∉ seen → ∃ e ∈ dedupLoop seen l, e.name = q.name := by
  intro seen l
  induction l generalizing seen with
  | nil => intro q hq _; simp at hq
  | cons p rest ih =>
    intro q hq hns
    by_cases hp : p.name ∈ seen
    · rw [show dedupLoop seen (p :: rest) = dedupLoop seen rest by simp [dedupLoop, hp]]
      rcases List.mem_cons.mp hq with rfl | hq2
      · exact absurd hp hns
      · exact ih seen q hq2 hns
    · rw [show dedupLoop seen (p :: rest) = p :: dedupLoop (p.name :: seen) rest by
        simp [dedupLoop, hp]]
      rcases List.mem_cons.mp hq with rfl | hq2
      · exact ⟨q, List.mem_cons_self _ _, rfl⟩
      · by_cases hqp : q.name = p.name
        · exact ⟨p, List.mem_cons_self _ _, hqp.symm⟩
        · rcases ih (p.name :: seen) q hq2 (by
            intro hc
            rcases List.mem_cons.mp hc with h1 | h2
            · exact hqp h1
            · exact hns h2) with ⟨e, he, hn⟩
          exact ⟨e, List.mem_cons_of_mem _ he, hn⟩

theorem dedupLoop_find : ∀ (seen : List String) (l : List PlayerRef) (e : PlayerRef),
    e ∈ dedupLoop seen l → l.find? (fun q => q.name == e.name) = some e := by
  intro seen l
  induction l generalizing seen with
  | nil => intro e he; simp [dedupLoop] at he
  | cons p rest ih =>
    intro e he
    by_cases hp : p.name ∈ seen
    · rw [show dedupLoop seen (p :: rest) = dedupLoop seen rest by simp [dedupLoop, hp]] at he
      have hne : p.name ≠ e.name := by
        intro hc
        exact dedupLoop_not_seen seen rest e he (hc ▸ hp)
      rw [List.find?_cons_of_neg _ (by simp [hne])]
      exact ih seen e he
    · rw [show dedupLoop seen (p :: rest) = p :: dedupLoop (p.name :: seen) rest by
        simp [dedupLoop, hp]] at he
      rcases List.mem_cons.mp he with rfl | he2
      · rw [List.find?_cons_of_pos _ (by simp)]
      · have hnotin := dedupLoop_not_seen (p.name :: seen) rest e he2
        have hne : p.name ≠ e.name := by
          intro hc
          exact hnotin (hc ▸ List.mem_cons_self _ _)
        rw [List.find?_cons_of_neg _ (by simp [hne])]
        exact ih (p.name :: seen) e he2

theorem find_players_names_nodup (anchors : List Anchor) :
    ((find_players_from_match_page anchors).map PlayerRef.name).Nodup :=
  dedupLoop_names_nodup [] (anchors.filterMap playerAnchor)

theorem process_player_ids (playerNet : String → Except Unit Resp) (rounds : Rat)
    (p : PlayerRef) (e : PropEntry) (he : process_player playerNet rounds p = some e) :
    e.player = p.name ∧ e.player_href = p.href := by
  unfold process_player at he
  rcases hf : fetch_hltv_player_page playerNet p.href with u | o
  · rw [hf] at he; exact absurd he (by simp)
  · rw [hf] at he
    rcases o with _ | doc
    · exact absurd he (by simp)
    · dsimp only at he
      by_cases hr : doc.raw.isEmpty
      · rw [if_pos hr] at he; exact absurd he (by simp)
      · rw [if_neg hr] at he
        cases Option.some.inj he
        exact ⟨rfl, rfl⟩

theorem process_player_some_of (playerNet : String → Except Unit Resp) (rounds : Rat)
    (p : PlayerRef) (d : Doc)
    (hf : fetch_hltv_player_page playerNet p.href = .ok (some d))
    (hr : d.raw.isEmpty = false) :
    process_player playerNet rounds p =
      some (process_player.mkEntry p (parse_player_stats_from_player_page d) rounds) := by
  unfold process_player
  rw [hf]
  dsimp only
  rw [hr]
  simp

/-- The effect of one structured-loop step on the kills-per-round field,
as a function of the label's sibling text. -/
def sibUpdateKpr (cur : Option Rat) (sib : Option String) : Option Rat :=
  match sib with
  | none => cur
  | some s => safe_float (stripPct s)

/-- The effect of one structured-loop step on the headshot field. -/
def sibUpdateHs (cur : Option Rat) (sib : Option String) : Option Rat :=
  match sib with
  | none => cur
  | some s => (safe_float (stripPct s)).map normHs

theorem foldl_structStep_fst (l : List Element) (a b : Option Rat) :
    (l.foldl structStep (a, b)).1 = (kprView l).foldl sibUpdateKpr a := by
  induction l generalizing a b with
  | nil => simp [kprView]
  | cons e l ih =>
    rw [List.foldl_cons]
    by_cases hl : isStatLabel e = true
    · by_cases hk : e.text = "Kills / round"
      · cases hs : e.sibText with
        | none =>
          rw [show structStep (a, b) e = (a, b) by simp [structStep, hl, hs]]
          rw [show kprView (e :: l) = none :: kprView l by
            simp [kprView, List.filterMap_cons, hl, hk, hs]]
          rw [List.foldl_cons]
          exact ih a b
        | some s =>
          rw [show structStep (a, b) e = (safe_float (stripPct s), b) by
            simp [structStep, hl, hk, hs]]
          rw [show kprView (e :: l) = some s :: kprView l by
            simp [kprView, List.filterMap_cons, hl, hk, hs]]
          rw [List.foldl_cons]
          exact ih _ b
      · have hview : kprView (e :: l) = kprView l := by
          simp [kprView, List.filterMap_cons, hk]
        cases hs : e.sibText with
        | none =>
          rw [show structStep (a, b) e = (a, b) by simp [structStep, hl, hs]]
          rw [hview]
          exact ih a b
        | some s =>
          rw [show structStep (a, b) e = (a, (safe_float (stripPct s)).map normHs) by
            simp [structStep, hl, hk, hs]]
          rw [hview]
          exact ih a _
    · rw [show structStep (a, b) e = (a, b) by simp [structStep, hl]]
      rw [show kprView (e :: l) = kprView l by
        simp [kprView, List.filterMap_cons, hl]]
      exact ih a b

theorem foldl_structStep_snd (l : List Element) (a b : Option Rat) :
    (l.foldl structStep (a, b)).2 = (hsView l).foldl sibUpdateHs b := by
  induction l generalizing a b with
  | nil => simp [hsView]
  | cons e l ih =>
    rw [List.foldl_cons]
    by_cases hl : isStatLabel e = true
    · by_cases hk : e.text = "Kills / round"
      · have hview : hsView (e :: l) = hsView l := by
          simp [hsView, List.filterMap_cons, hk]
        cases hs : e.sibText with
        | none =>
          rw [show structStep (a, b) e = (a, b) by simp [structStep, hl, hs]]
          rw [hview]
          exact ih a b
        | some s =>
          rw [show structStep (a, b) e = (safe_float (stripPct s), b) by
            simp [structStep, hl, hk, hs]]
          rw [hview]
          exact ih _ b
      · cases hs : e.sibText with
        | none =>
          rw [show structStep (a, b) e = (a, b) by simp [structStep, hl, hs]]
          rw [show hsView (e :: l) = none :: hsView l by
            simp [hsView, List.filterMap_cons, hl, hk, hs]]
          rw [List.foldl_cons]
          exact ih a b
        | some s =>
          rw [show structStep (a, b) e = (a, (safe_float (stripPct s)).map normHs) by
            simp [structStep, hl, hk, hs]]
          rw [show hsView (e :: l) = some s :: hsView l by
            simp [hsView, List.filterMap_cons, hl, hk, hs]]
          rw [List.foldl_cons]
          exact ih a _
    · rw [show structStep (a, b) e = (a, b) by simp [structStep, hl]]
      rw [show hsView (e :: l) = hsView l by
        simp [hsView, List.filterMap_cons, hl]]
      exact ih a b

theorem parse_fst (d : Doc) : (parse_player_stats_from_player_page d).1 =
    match structKpr d with
    | some k => some k
    | none => regexKprVal d.raw := rfl

theorem parse_snd (d : Doc) : (parse_player_stats_from_player_page d).2 =
    match structHs d with
    | some h => some h
    | none => regexHsVal d.raw := rfl

/-!
## Concrete fixtures used by witnesses and counterexamples
-/

/-- A player profile document carrying the spec's running example:
a `Kills / round` label with sibling `0.75` and a `Headshots` label with
sibling `42%`. -/
def playerDocStats : Doc :=
  ⟨"x".toList, [⟨"span", "Kills / round", some "0.75"⟩, ⟨"span", "Headshots", some "42%"⟩], []⟩

/-- A network oracle that serves `playerDocStats` with status 200. -/
def pnetStats : String → Except Unit Resp := fun _ => .ok ⟨200, playerDocStats⟩

/-- A match document with one participant link and neutral raw text (no
favorite keyword, no percent tokens, so roundsPerMap stays 23.5). -/
def matchDocOneA : Doc := ⟨"m".toList, [], [⟨"/player/1/a", "a"⟩]⟩

/-- A network oracle that serves `matchDocOneA` with status 200. -/
def mnetOneA : String → Except Unit Resp := fun _ => .ok ⟨200, matchDocOneA⟩

/-- The entry produced for participant `a` from `playerDocStats` at
roundsPerMap 23.5: kpr 0.75, hs 0.42, expected kills 17.62, hs line
round(0.42 * 17.62, 2) = 7.4. -/
def entryA : PropEntry := ⟨"a", "/player/1/a", 3/4, 21/50, 881/50, 881/50, 37/5⟩

/-!
## Claims
-/

/-- C1 (amended): after `cache_set k v` at time `t0`, a `cache_get` at
time `t` with `t - t0 ≤ TTL` (including at exactly the TTL: the source
uses a strict `>` staleness test) returns `v` unchanged, and a
`cache_get` with `t - t0 > TTL` returns none and deletes the record,
where TTL is 30 minutes. -/
theorem cache_ttl_boundary {V : Type} (c : Cache V) (k : String) (v : V) (t0 t : Int) :
    (t - t0 ≤ CACHE_TTL →
      cache_get t (cache_set t0 c k v) k = (some v, cache_set t0 c k v))
    ∧ (CACHE_TTL < t - t0 →
      cache_get t (cache_set t0 c k v) k = (none, cacheErase (cache_set t0 c k v) k)) := by
  have hlook : cacheLookup (cache_set t0 c k v) k = some ⟨t0, v⟩ := by
    unfold cacheLookup cache_set
    rw [List.find?_cons_of_pos _ (by simp)]
    rfl
  constructor
  · intro h
    unfold cache_get
    rw [hlook]
    dsimp only
    rw [if_neg (by omega)]
  · intro h
    unfold cache_get
    rw [hlook]
    dsimp only
    rw [if_pos (by omega)]

/-- Witness for C1's theorem at concrete instants 1800 and 1801 around a
set at time 0. -/
theorem cache_ttl_boundary_witness :
    cache_get 1800 (cache_set 0 ([] : Cache Nat) "k" 5) "k"
      = (some 5, cache_set 0 ([] : Cache Nat) "k" 5)
    ∧ cache_get 1801 (cache_set 0 ([] : Cache Nat) "k" 5) "k"
      = (none, cacheErase (cache_set 0 ([] : Cache Nat) "k" 5) "k") :=
  ⟨(cache_ttl_boundary [] "k" 5 0 1800).1 (by decide),
   (cache_ttl_boundary [] "k" 5 0 1801).2 (by decide)⟩

/-- C1 counterexample: at age exactly the TTL (t - t0 = 1800 = TTL) the
claim demands none-and-delete, but the source's strict `>` comparison
returns the stored value unchanged. -/
theorem cache_get_at_exact_ttl_returns_value :
    (cache_get 1800 (cache_set 0 ([] : Cache Nat) "k" 5) "k").1 = some 5 := by decide

/-- C3 (amended): each fetcher returns the document body on a 200
response and none on any non-200 status; a timeout or network failure —
a raised `requests` exception, modelled as `Except.error` — is not
caught inside the fetcher and propagates to the caller. -/
theorem fetcher_non200_none_error_propagates
    (net : String → Except Unit Resp) (player_href match_id : String) :
    (∀ r, net (playerUrl player_href) = .ok r →
      fetch_hltv_player_page net player_href
        = .ok (if r.status = 200 then some r.body else none))
    ∧ (∀ u, net (playerUrl player_href) = .error u →
      fetch_hltv_player_page net player_href = .error u)
    ∧ (∀ r, net (matchUrl match_id) = .ok r →
      fetch_match_page net match_id = .ok (if r.status = 200 then some r.body else none))
    ∧ (∀ u, net (matchUrl match_id) = .error u → fetch_match_page net match_id = .error u) := by
  refine ⟨?_, ?_, ?_, ?_⟩
  · intro r h
    unfold fetch_hltv_player_page
    rw [h]
    dsimp only
    by_cases hs : r.status = 200 <;> simp [hs]
  · intro u h
    unfold fetch_hltv_player_page
    rw [h]
  · intro r h
    unfold fetch_match_page
    rw [h]
    dsimp only
    by_cases hs : r.status = 200 <;> simp [hs]
  · intro u h
    unfold fetch_match_page
    rw [h]

/-- Witness for C3's theorem: a 404 response yields none, a 200 yields
the body. -/
theorem fetcher_non200_none_error_propagates_witness :
    fetch_hltv_player_page (fun _ => .ok ⟨404, matchDocOneA⟩) "/player/7592/device" = .ok none
    ∧ fetch_match_page (fun _ => .ok ⟨200, matchDocOneA⟩) "123" = .ok (some matchDocOneA) := by
  constructor
  · have h := (fetcher_non200_none_error_propagates
      (fun _ => .ok ⟨404, matchDocOneA⟩) "/player/7592/device" "123").1 ⟨404, matchDocOneA⟩ rfl
    rw [if_neg (by decide)] at h
    exact h
  · have h := (fetcher_non200_none_error_propagates
      (fun _ => .ok ⟨200, matchDocOneA⟩) "/player/7592/device" "123").2.2.1 ⟨200, matchDocOneA⟩ rfl
    rw [if_pos rfl] at h
    exact h

/-- C3 counterexample: on a network failure both fetchers propagate the
exception to their caller instead of returning none — `requests.get`
raises and the fetchers have no handler. -/
theorem fetcher_raises_on_network_failure :
    fetch_hltv_player_page (fun _ => Except.error ()) "/player/7592/device" = Except.error ()
    ∧ fetch_match_page (fun _ => Except.error ()) "123" = Except.error () :=
  ⟨rfl, rfl⟩

/-- C5 (amended): when the cache holds a fresh record with a non-empty
value under the match's props key, buildProps returns the cached value
immediately; the fetch oracles are universally quantified and absent
from the conclusion, so no fetch influences the result.  (A cached empty
sequence instead falls through Python's truthiness test and is
recomputed.) -/
theorem cache_hit_nonempty_immediate
    (now : Int) (matchNet playerNet : String → Except Unit Resp) (match_id : String)
    (c c1 : Cache (List PropEntry)) (v : List PropEntry)
    (h : cache_get now c (matchPropsKey match_id) = (some v, c1))
    (hv : v ≠ []) :
    build_props_for_match now matchNet playerNet match_id c = .ok (v, c1) := by
  unfold build_props_for_match
  rw [h]
  dsimp only
  cases v with
  | nil => exact absurd rfl hv
  | cons a t => rw [if_neg (by simp)]

/-- Witness for C5's theorem: a fresh non-empty cached list is returned
unchanged even under oracles that fail every request. -/
theorem cache_hit_nonempty_immediate_witness :
    cache_get 0 (cache_set 0 [] (matchPropsKey "m1") [entryA]) (matchPropsKey "m1")
      = (some [entryA], cache_set 0 [] (matchPropsKey "m1") [entryA])
    ∧ build_props_for_match 0 (fun _ => .error ()) (fun _ => .error ()) "m1"
        (cache_set 0 [] (matchPropsKey "m1") [entryA])
      = .ok ([entryA], cache_set 0 [] (matchPropsKey "m1") [entryA]) :=
  ⟨by decide,
   cache_hit_nonempty_immediate 0 (fun _ => .error ()) (fun _ => .error ()) "m1"
     (cache_set 0 [] (matchPropsKey "m1") [entryA])
     (cache_set 0 [] (matchPropsKey "m1") [entryA]) [entryA] (by decide) (by decide)⟩

/-- C5 counterexample: the cache holds a fresh record whose value is the
empty sequence, yet buildProps does not return it — it re-runs the whole
pipeline and returns a different, non-empty result, because the source's
`if cached:` treats an empty list as a miss. -/
theorem cached_empty_props_recomputed :
    cache_get 0 (cache_set 0 [] (matchPropsKey "m1") ([] : List PropEntry)) (matchPropsKey "m1")
      = (some [], cache_set 0 [] (matchPropsKey "m1") ([] : List PropEntry))
    ∧ build_props_for_match 0 mnetOneA pnetStats "m1"
        (cache_set 0 [] (matchPropsKey "m1") ([] : List PropEntry))
      = .ok ([entryA],
          cache_set 0 (cache_set 0 [] (matchPropsKey "m1") ([] : List PropEntry))
            (matchPropsKey "m1") [entryA])
    ∧ ([entryA] : List PropEntry) ≠ [] :=
  ⟨by decide, by decide, by decide⟩

/-- C7 (amended): whenever the stat extractor recovers a raw headshot
value, a value above 1 is divided by 100 and a value at most 1 is kept
as-is; the resulting hsFraction lies in [0,1] whenever the raw value
lies in [0,100], but can fall outside [0,1] for raw values above 100 or
negative raw values. -/
theorem headshot_normalization_bounds (tag sib : String) (v : Rat)
    (htag : tag = "span" ∨ tag = "div")
    (hv : safe_float (stripPct sib) = some v) :
    (parse_player_stats_from_player_page ⟨[], [⟨tag, "Headshots", some sib⟩], []⟩).2
      = some (normHs v)
    ∧ (1 < v → normHs v = v / 100)
    ∧ (v ≤ 1 → normHs v = v)
    ∧ (0 ≤ v → v ≤ 100 → 0 ≤ normHs v ∧ normHs v ≤ 1) := by
  refine ⟨?_, ?_, ?_, ?_⟩
  · have hstruct : structHs ⟨[], [⟨tag, "Headshots", some sib⟩], []⟩ = some (normHs v) := by
      unfold structHs
      rw [foldl_structStep_snd]
      have hview : hsView [⟨tag, "Headshots", some sib⟩] = [some sib] := by
        rcases htag with h | h <;> simp [hsView, isStatLabel, h]
      rw [hview]
      simp [sibUpdateHs, hv]
    rw [parse_snd, hstruct]
  · intro h
    simp [normHs, h]
  · intro h
    rw [normHs, if_neg (not_lt.mpr h)]
  · intro h0 h100
    unfold normHs
    split
    · exact ⟨div_nonneg h0 (by norm_num), (div_le_one (by norm_num)).mpr h100⟩
    · rename_i hlt
      exact ⟨h0, not_lt.mp hlt⟩

/-- Witness for C7's theorem: raw 42 normalizes to 0.42 and lies in
[0,1]; raw 0.42 stays 0.42. -/
theorem headshot_normalization_bounds_witness :
    safe_float (stripPct "42%") = some 42
    ∧ (parse_player_stats_from_player_page ⟨[], [⟨"span", "Headshots", some "42%"⟩], []⟩).2
        = some (normHs 42)
    ∧ normHs 42 = 21/50
    ∧ normHs (21/50) = 21/50 :=
  ⟨by decide,
   (headshot_normalization_bounds "span" "42%" 42 (Or.inl rfl) (by decide)).1,
   by decide, by decide⟩

/-- C7 counterexample: a raw headshot value of 250 (sibling text "250%")
is recovered as 2.5, which is outside [0,1] — the claim's universal
[0,1] bound on a present hsFraction fails. -/
theorem headshot_above_100_exceeds_unit_interval :
    (parse_player_stats_from_player_page ⟨"x".toList, [⟨"span", "Headshots", some "250%"⟩], []⟩).2
      = some (5/2)
    ∧ ¬ ((5/2 : Rat) ≤ 1) :=
  ⟨by decide, by decide⟩

/-- C8: extraction methods apply in priority order independently per
field — a field set by the structured label-sibling lookup is final and
never replaced by the regex fallback; the regex fallback runs exactly
when the structured phase left the field unset; and each field's result
depends only on that field's label view and the raw text, so a parse
failure in one field never disturbs the other. -/
theorem extraction_priority_independence (d : Doc) :
    (∀ k, structKpr d = some k → (parse_player_stats_from_player_page d).1 = some k)
    ∧ (structKpr d = none → (parse_player_stats_from_player_page d).1 = regexKprVal d.raw)
    ∧ (∀ h, structHs d = some h → (parse_player_stats_from_player_page d).2 = some h)
    ∧ (structHs d = none → (parse_player_stats_from_player_page d).2 = regexHsVal d.raw)
    ∧ (∀ d2 : Doc, d2.raw = d.raw → kprView d2.elements = kprView d.elements →
        (parse_player_stats_from_player_page d2).1 = (parse_player_stats_from_player_page d).1)
    ∧ (∀ d2 : Doc, d2.raw = d.raw → hsView d2.elements = hsView d.elements →
        (parse_player_stats_from_player_page d2).2 = (parse_player_stats_from_player_page d).2) := by
  refine ⟨?_, ?_, ?_, ?_, ?_, ?_⟩
  · intro k hk
    rw [parse_fst, hk]
  · intro hk
    rw [parse_fst, hk]
  · intro h hh
    rw [parse_snd, hh]
  · intro hh
    rw [parse_snd, hh]
  · intro d2 hraw hview
    rw [parse_fst, parse_fst]
    have hstruct : structKpr d2 = structKpr d := by
      unfold structKpr
      rw [foldl_structStep_fst, foldl_structStep_fst, hview]
    rw [hstruct, hraw]
  · intro d2 hraw hview
    rw [parse_snd, parse_snd]
    have hstruct : structHs d2 = structHs d := by
      unfold structHs
      rw [foldl_structStep_snd, foldl_structStep_snd, hview]
    rw [hstruct, hraw]

/-- A document whose raw text would let the regex fallback find 0.99,
while the structured lookup finds 0.75. -/
def docPriority : Doc :=
  ⟨"Kills / round 0.99".toList, [⟨"span", "Kills / round", some "0.75"⟩], []⟩

/-- Witness for C8's theorem: the structured value 0.75 wins over the
regex fallback value 0.99 present in the raw text. -/
theorem extraction_priority_independence_witness :
    structKpr docPriority = some (3/4)
    ∧ regexKprVal docPriority.raw = some (99/100)
    ∧ (parse_player_stats_from_player_page docPriority).1 = some (3/4) :=
  ⟨by decide, by decide,
   (extraction_priority_independence docPriority).1 (3/4) (by decide)⟩

theorem estimate_eq_of_two (s : List Char) (p0 p1 : Nat) (r : List Nat)
    (hps : findPcts s = p0 :: p1 :: r) :
    estimate_rounds_by_odds s =
      (if 15 ≤ ((p0 : Int) - p1).natAbs then 22
       else if ((p0 : Int) - p1).natAbs ≤ 8 then 26
       else if strContains (s.map Char.toLower) "favorite".toList
              || strContains (s.map Char.toLower) "favored".toList then 22 else 23.5) := by
  simp only [estimate_rounds_by_odds]
  rw [hps]

theorem estimate_eq_default (s : List Char) (hlen : (findPcts s).length ≤ 1) :
    estimate_rounds_by_odds s =
      (if strContains (s.map Char.toLower) "favorite".toList
          || strContains (s.map Char.toLower) "favored".toList then 22 else 23.5) := by
  simp only [estimate_rounds_by_odds]
  rcases hp : findPcts s with _ | ⟨a, _ | ⟨b, r⟩⟩
  · rfl
  · rfl
  · rw [hp] at hlen
    simp at hlen

/-- C4: estimateRoundsPerMap is deterministic (a pure function of the
document text), always lands in exactly \x7b22.0, 23.5, 26.0\x7d, and when
at least two integer percent tokens exist, the absolute difference of
the first two forces 22.0 at ≥ 15 and 26.0 at ≤ 8 regardless of the
favorite/favored keyword (the percent adjustment, evaluated afterward,
overrides the keyword adjustment); otherwise the keyword-or-default
value stands. -/
theorem estimate_rounds_range_and_overrides (s : List Char) :
    (estimate_rounds_by_odds s = 22 ∨ estimate_rounds_by_odds s = 23.5
      ∨ estimate_rounds_by_odds s = 26)
    ∧ (∀ p0 p1 r, findPcts s = p0 :: p1 :: r →
        (15 ≤ ((p0 : Int) - p1).natAbs → estimate_rounds_by_odds s = 22)
        ∧ (((p0 : Int) - p1).natAbs ≤ 8 → estimate_rounds_by_odds s = 26)
        ∧ (8 < ((p0 : Int) - p1).natAbs → ((p0 : Int) - p1).natAbs < 15 →
            estimate_rounds_by_odds s =
              (if strContains (s.map Char.toLower) "favorite".toList
                  || strContains (s.map Char.toLower) "favored".toList
               then 22 else 23.5)))
    ∧ ((findPcts s).length ≤ 1 →
        estimate_rounds_by_odds s =
          (if strContains (s.map Char.toLower) "favorite".toList
              || strContains (s.map Char.toLower) "favored".toList
           then 22 else 23.5)) := by
  refine ⟨?_, ?_, estimate_eq_default s⟩
  · rcases hp : findPcts s with _ | ⟨a, _ | ⟨b, r⟩⟩
    · rw [estimate_eq_default s (by rw [hp]; simp)]
      split
      · exact Or.inl rfl
      · exact Or.inr (Or.inl rfl)
    · rw [estimate_eq_default s (by rw [hp]; simp)]
      split
      · exact Or.inl rfl
      · exact Or.inr (Or.inl rfl)
    · rw [estimate_eq_of_two s a b r hp]
      split
      · exact Or.inl rfl
      · split
        · exact Or.inr (Or.inr rfl)
        · split
          · exact Or.inl rfl
          · exact Or.inr (Or.inl rfl)
  · intro p0 p1 r hps
    rw [estimate_eq_of_two s p0 p1 r hps]
    refine ⟨?_, ?_, ?_⟩
    · intro h
      rw [if_pos h]
    · intro h
      by_cases h15 : 15 ≤ ((p0 : Int) - p1).natAbs
      · omega
      · rw [if_neg h15, if_pos h]
    · intro h8 h15
      rw [if_neg (by omega), if_neg (by omega)]

/-- Witness for C4's theorem: the text contains "favored" (keyword value
22.0) and percent tokens 60 and 52 with difference 8, so the percent
adjustment overrides the keyword and the estimate is 26.0. -/
theorem estimate_rounds_range_and_overrides_witness :
    strContains ("favored 60% 52%".toList.map Char.toLower) "favored".toList = true
    ∧ findPcts "favored 60% 52%".toList = [60, 52]
    ∧ ((60 : Int) - 52).natAbs ≤ 8
    ∧ estimate_rounds_by_odds "favored 60% 52%".toList = 26 :=
  ⟨by decide, by decide, by decide,
   ((estimate_rounds_range_and_overrides "favored 60% 52%".toList).2.1 60 52 []
     (by decide)).2.1 (by decide)⟩

/-- C2: on a cache miss with a successfully fetched non-empty match
document, buildProps processes exactly the first 20 participants in
document order; a participant whose processing yields nothing (failed or
raising fetch, missing or falsy page) is entirely absent from the output
— no placeholder — while every successfully processed participant of the
first 20 appears; hence the output never exceeds 20 entries. -/
theorem build_props_first20_skip_failures
    (now : Int) (matchNet playerNet : String → Except Unit Resp) (match_id : String) (doc : Doc)
    (hm : fetch_match_page matchNet match_id = .ok (some doc))
    (hraw : doc.raw.isEmpty = false) :
    build_props_for_match now matchNet playerNet match_id [] =
      .ok (((find_players_from_match_page doc.anchors).take 20).filterMap
             (process_player playerNet (estimate_rounds_by_odds doc.raw)),
           cache_set now [] (matchPropsKey match_id)
             (((find_players_from_match_page doc.anchors).take 20).filterMap
               (process_player playerNet (estimate_rounds_by_odds doc.raw))))
    ∧ (((find_players_from_match_page doc.anchors).take 20).filterMap
        (process_player playerNet (estimate_rounds_by_odds doc.raw))).length ≤ 20
    ∧ (∀ p ∈ (find_players_from_match_page doc.anchors).take 20,
        process_player playerNet (estimate_rounds_by_odds doc.raw) p = none →
        ∀ e ∈ ((find_players_from_match_page doc.anchors).take 20).filterMap
            (process_player playerNet (estimate_rounds_by_odds doc.raw)),
          e.player ≠ p.name)
    ∧ (∀ p ∈ (find_players_from_match_page doc.anchors).take 20,
        ∀ e, process_player playerNet (estimate_rounds_by_odds doc.raw) p = some e →
          e ∈ ((find_players_from_match_page doc.anchors).take 20).filterMap
            (process_player playerNet (estimate_rounds_by_odds doc.raw))) := by
  refine ⟨?_, ?_, ?_, ?_⟩
  · have h0 : cache_get now ([] : Cache (List PropEntry)) (matchPropsKey match_id)
        = (none, []) := rfl
    unfold build_props_for_match
    rw [h0]
    dsimp only
    unfold build_props_uncached
    rw [hm]
    dsimp only
    rw [hraw]
    simp
  · refine (List.length_filterMap_le _ _).trans ?_
    rw [List.length_take]
    exact min_le_left _ _
  · intro p hp hnone e he hcontra
    rcases List.mem_filterMap.mp he with ⟨q, hq, hqe⟩
    have hids := process_player_ids playerNet _ q e hqe
    have hnames : (((find_players_from_match_page doc.anchors).take 20).map
        PlayerRef.name).Nodup := by
      rw [List.map_take]
      exact (List.take_sublist _ _).nodup (find_players_names_nodup doc.anchors)
    have hqp : q = p :=
      List.inj_on_of_nodup_map hnames hq hp (by rw [← hids.1, hcontra])
    rw [hqp, hnone] at hqe
    exact absurd hqe (by simp)
  · intro p hp e he
    exact List.mem_filterMap.mpr ⟨p, hp, he⟩

/-- A match document with 50 distinct participant links. -/
def doc50 : Doc :=
  ⟨"m".toList, [],
    (List.range 50).map (fun i => ⟨"/player/" ++ toString i ++ "/p", "p" ++ toString i⟩)⟩

/-- A network oracle serving `doc50` with status 200. -/
def mnet50 : String → Except Unit Resp := fun _ => .ok ⟨200, doc50⟩

/-- Witness for C2's theorem: 50 participant links are present, and the
output is capped at 20 entries. -/
theorem build_props_first20_skip_failures_witness :
    fetch_match_page mnet50 "m" = .ok (some doc50)
    ∧ doc50.raw.isEmpty = false
    ∧ (find_players_from_match_page doc50.anchors).length = 50
    ∧ (((find_players_from_match_page doc50.anchors).take 20).filterMap
        (process_player (fun _ => Except.error ()) (estimate_rounds_by_odds doc50.raw))).length
        ≤ 20 :=
  ⟨by decide, by decide, by decide,
   (build_props_first20_skip_failures 0 mnet50 (fun _ => Except.error ()) "m" doc50
     (by decide) (by decide)).2.1⟩

/-- C9: extractParticipants returns exactly the hyperlinks whose target
path begins with the player-profile prefix and whose visible text is
non-empty, deduplicated by player name — output names are pairwise
distinct, the output is an order-preserving sublist of the filtered
links, every filtered link's name is represented, and each emitted entry
is the FIRST filtered occurrence of its name (so it carries the first
occurrence's href). -/
theorem participants_filter_dedup (anchors : List Anchor) :
    ((find_players_from_match_page anchors).map PlayerRef.name).Nodup
    ∧ (find_players_from_match_page anchors).Sublist (anchors.filterMap playerAnchor)
    ∧ (∀ q ∈ anchors.filterMap playerAnchor,
        ∃ e ∈ find_players_from_match_page anchors, e.name = q.name)
    ∧ (∀ e ∈ find_players_from_match_page anchors,
        (anchors.filterMap playerAnchor).find? (fun q => q.name == e.name) = some e) := by
  refine ⟨find_players_names_nodup anchors, dedupLoop_sublist [] _, ?_, ?_⟩
  · intro q hq
    exact dedupLoop_complete [] _ q hq (by simp)
  · intro e he
    exact dedupLoop_find [] _ e he

/-- Witness for C9's theorem: two links with the same player name and
different hrefs yield exactly one entry carrying the first occurrence's
href. -/
theorem participants_filter_dedup_witness :
    find_players_from_match_page [⟨"/player/1/x", "dev"⟩, ⟨"/player/2/y", "dev"⟩]
      = [⟨"dev", "/player/1/x"⟩]
    ∧ ([⟨"/player/1/x", "dev"⟩, ⟨"/player/2/y", "dev"⟩].filterMap playerAnchor).find?
        (fun q => q.name == "dev") = some ⟨"dev", "/player/1/x"⟩ :=
  ⟨by decide,
   (participants_filter_dedup [⟨"/player/1/x", "dev"⟩, ⟨"/player/2/y", "dev"⟩]).2.2.2
     ⟨"dev", "/player/1/x"⟩ (by decide)⟩

/-- C6 (amended): every emitted PropEntry has all numeric fields present,
with kpr and hsPercent equal to the parsed values under zero-fallback,
and expectedKillsPerMap = round(kpr * roundsPerMap, 2) when kpr was
recovered and 0 otherwise; since Python's round is half-to-even, the
spec's example kpr 0.75 with roundsPerMap 23.5 yields round(17.625, 2) =
17.62. -/
theorem prop_entry_field_formulas
    (playerNet : String → Except Unit Resp) (rounds : Rat) (p : PlayerRef) (d : Doc)
    (e : PropEntry)
    (hf : fetch_hltv_player_page playerNet p.href = .ok (some d))
    (hr : d.raw.isEmpty = false)
    (he : process_player playerNet rounds p = some e) :
    (e.kpr = (parse_player_stats_from_player_page d).1.getD 0
    ∧ e.hs_percent = (parse_player_stats_from_player_page d).2.getD 0
    ∧ (∀ k, (parse_player_stats_from_player_page d).1 = some k →
        e.expected_kills_per_map = pyRound2 (k * rounds))
    ∧ ((parse_player_stats_from_player_page d).1 = none → e.expected_kills_per_map = 0))
    ∧ pyRound2 ((3/4 : Rat) * (47/2)) = 1762/100 := by
  rw [process_player_some_of playerNet rounds p d hf hr] at he
  cases Option.some.inj he
  refine ⟨⟨rfl, rfl, ?_, ?_⟩, by decide⟩
  · intro k hk
    simp [process_player.mkEntry, hk]
  · intro hk
    simp [process_player.mkEntry, hk]

/-- Witness for C6's theorem at the spec's example inputs. -/
theorem prop_entry_field_formulas_witness :
    fetch_hltv_player_page pnetStats "/player/1/a" = .ok (some playerDocStats)
    ∧ playerDocStats.raw.isEmpty = false
    ∧ process_player pnetStats (47/2) ⟨"a", "/player/1/a"⟩ = some entryA
    ∧ entryA.kpr = (parse_player_stats_from_player_page playerDocStats).1.getD 0 :=
  ⟨by decide, by decide, by decide,
   ((prop_entry_field_formulas pnetStats (47/2) ⟨"a", "/player/1/a"⟩ playerDocStats entryA
     (by decide) (by decide) (by decide)).1).1⟩

/-- C6 counterexample: through the full pipeline, the spec's example
(kpr 0.75, hs 42%, roundsPerMap 23.5) produces expectedKillsPerMap
17.62, not the 17.63 the claim states — Python `round(17.625, 2)` ties
to even. -/
theorem expected_kills_example_is_17_62 :
    build_props_for_match 0 mnetOneA pnetStats "m1" [] =
      .ok ([entryA], cache_set 0 [] (matchPropsKey "m1") [entryA])
    ∧ estimate_rounds_by_odds matchDocOneA.raw = 47/2
    ∧ (parse_player_stats_from_player_page playerDocStats).1 = some (3/4)
    ∧ entryA.expected_kills_per_map = 1762/100
    ∧ (1762/100 : Rat) ≠ 1763/100 :=
  ⟨by decide, by decide, by decide, by decide, by decide⟩

/-- C10: in every emitted PropEntry, kill_line equals
expectedKillsPerMap (hence 0 when kpr is unknown), and hs_line is
round(hsFraction * expectedKillsPerMap, 2) exactly when the headshot
stat was recovered and the expected-kills value is known and nonzero,
and 0 in every other case. -/
theorem kill_hs_line_derivation
    (playerNet : String → Except Unit Resp) (rounds : Rat) (p : PlayerRef) (d : Doc)
    (e : PropEntry)
    (hf : fetch_hltv_player_page playerNet p.href = .ok (some d))
    (hr : d.raw.isEmpty = false)
    (he : process_player playerNet rounds p = some e) :
    e.kill_line = e.expected_kills_per_map
    ∧ ((parse_player_stats_from_player_page d).1 = none → e.kill_line = 0)
    ∧ (∀ h k, (parse_player_stats_from_player_page d).2 = some h →
        (parse_player_stats_from_player_page d).1 = some k →
        pyRound2 (k * rounds) ≠ 0 →
        e.hs_line = pyRound2 (h * pyRound2 (k * rounds)))
    ∧ ((parse_player_stats_from_player_page d).2 = none → e.hs_line = 0)
    ∧ (∀ k, (parse_player_stats_from_player_page d).1 = some k →
        pyRound2 (k * rounds) = 0 → e.hs_line = 0)
    ∧ ((parse_player_stats_from_player_page d).1 = none → e.hs_line = 0) := by
  rw [process_player_some_of playerNet rounds p d hf hr] at he
  cases Option.some.inj he
  refine ⟨rfl, ?_, ?_, ?_, ?_, ?_⟩
  · intro hk
    simp [process_player.mkEntry, hk]
  · intro h k hh hk hnz
    simp [process_player.mkEntry, hh, hk, hnz]
  · intro hh
    simp [process_player.mkEntry, hh]
  · intro k hk hz
    cases hh : (parse_player_stats_from_player_page d).2 with
    | none => simp [process_player.mkEntry, hh, hk, hz]
    | some h => simp [process_player.mkEntry, hh, hk, hz]
  · intro hk
    simp [process_player.mkEntry, hk]

/-- Witness for C10's theorem at the example inputs: kill_line equals
expectedKillsPerMap and hs_line = round(0.42 * 17.62, 2) = 7.4. -/
theorem kill_hs_line_derivation_witness :
    process_player pnetStats (47/2) ⟨"a", "/player/1/a"⟩ = some entryA
    ∧ entryA.kill_line = entryA.expected_kills_per_map
    ∧ entryA.hs_line = pyRound2 ((21/50) * pyRound2 ((3/4) * (47/2))) :=
  ⟨by decide,
   (kill_hs_line_derivation pnetStats (47/2) ⟨"a", "/player/1/a"⟩ playerDocStats entryA
     (by decide) (by decide) (by decide)).1,
   (kill_hs_line_derivation pnetStats (47/2) ⟨"a", "/player/1/a"⟩ playerDocStats entryA
     (by decide) (by decide) (by decide)).2.2.1 (21/50) (3/4)
     (by decide) (by decide) (by decide)⟩
